import Mathlib

/-!
Shallow embedding of the sampling-decision engine of `dd-opentracing-rs`:
the token-bucket rate limiter (`src/dd/limiter.rs`), the hash-based
priority sampler (`src/dd/sample/priority_sampler.rs`, plus the older copy
at `src/priority_sampler.rs`), the shared numeric helpers
(`src/dd/tools.rs`), and the rule-matching layer (`src/rules_sampler.rs`).

Modelling conventions:
* `u64` / `u128` values are `Nat`; wherever the Rust code truncates
  (`as u64`) or can wrap, the reduction `% 2 ^ 64` is written explicitly.
  Where a `u128` product of two `u64`s cannot wrap, plain `Nat`
  multiplication is used.
* `f64` / `f32` values are modelled by `Fl`: either NaN or an exact
  rational.  Every floating-point computation that a theorem below
  evaluates is exact in IEEE double precision (products of dyadic
  rationals well inside the exponent range, sums of small halves and
  ones), so the rational model agrees with the Rust semantics at every
  input a theorem uses.  Rust float comparisons with NaN are false, and
  `as u64` on a float saturates to `[0, u64::MAX]`; both are modelled
  explicitly.
* `Instant` / `Duration` are nanosecond counts (`Nat`).  `Instant`
  subtraction in Rust panics when negative; `Nat` subtraction truncates
  at zero, which coincides on the monotone inputs used.
* The `Mutex` around each component's state is dropped: a method on
  `&self`/`&mut self` becomes a function from the guarded data (and the
  instant produced by the time provider) to the updated data and result.
-/

namespace DDTrace

/-- Model of an IEEE double (or float): NaN, or an exact rational value.
All rationals a theorem below evaluates at are exactly representable. -/
inductive Fl where
  | nan : Fl
  | val (q : ℚ) : Fl
deriving DecidableEq, Repr

/-- Largest `u64` value, `2 ^ 64 - 1`. -/
def U64_MAX : ℕ := 2 ^ 64 - 1

/-- Rust `as u64` applied to a (non-NaN) float: saturating truncation to
`[0, u64::MAX]`.  A negative rational floors to a negative integer whose
`Int.toNat` is `0`, matching Rust's saturation at the bottom. -/
def f64_as_u64 (q : ℚ) : ℕ := min U64_MAX (Int.toNat ⌊q⌋)

/-- From `src/dd/tools.rs`: `CONSTANT_RATE_HASH_FACTOR: u64 = 1111111111111111111`
(the same constant is redeclared in `src/priority_sampler.rs`). -/
def CONSTANT_RATE_HASH_FACTOR : ℕ := 1111111111111111111

/-- From `src/dd/tools.rs`: `MAX_TRACE_ID_DOUBLE: f64 = std::u64::MAX as f64`.
The conversion of `2 ^ 64 - 1` to double rounds to nearest, giving exactly
`2 ^ 64`. -/
def MAX_TRACE_ID_DOUBLE : ℚ := 2 ^ 64

/-- From `src/dd/tools.rs`: `max_id_from_sample_rate`.  The argument is an
`f64`; on NaN both comparisons `rate == 1.0` and `rate > 0.0` are false, so
the final branch returns `0`. -/
def max_id_from_sample_rate : Fl → ℕ
  | .nan => 0
  | .val rate =>
    if rate = 1 then U64_MAX
    else if rate > 0 then f64_as_u64 (rate * MAX_TRACE_ID_DOUBLE)
    else 0

namespace RootSampler

/-- From `src/priority_sampler.rs`:
`MAX_TRACE_ID_DOUBLE: f64 = std::f64::MAX as f64`.  Unlike the `dd/tools.rs`
constant of the same name, this is the largest finite double,
`(2 ^ 53 - 1) * 2 ^ 971`. -/
def MAX_TRACE_ID_DOUBLE : ℚ := (2 ^ 53 - 1) * 2 ^ 971

/-- From `src/priority_sampler.rs`: `PrioritySampler::max_id_from_sample_rate`,
the second implementation of the helper, using the root tree's
`MAX_TRACE_ID_DOUBLE`. -/
def max_id_from_sample_rate : Fl → ℕ
  | .nan => 0
  | .val rate =>
    if rate = 1 then U64_MAX
    else if rate > 0 then f64_as_u64 (rate * RootSampler.MAX_TRACE_ID_DOUBLE)
    else 0

end RootSampler

/-- Modelled from the spec: the sampling-priority enum
(`src/sampling_priority.rs` is declared by `lib.rs` but absent from the
snapshot); the spec's decision set is `{Keep, Drop, unset}` and the code
uses exactly the variants `SamplerDrop` and `SamplerKeep`, with `unset`
as `Option.none` around the enum. -/
inductive SamplingPriority where
  | SamplerDrop : SamplingPriority
  | SamplerKeep : SamplingPriority
deriving DecidableEq, Repr

/-- From `src/dd/sample/priority_sampler.rs`: `SamplingRate { rate: f32,
max_hash: u64 }`. -/
structure SamplingRate where
  rate : Fl
  max_hash : ℕ
deriving DecidableEq, Repr

/-- From `src/dd/sample/priority_sampler.rs`: `SampleResult` with fields
`rule_rate: f64`, `limiter_rate: f64`, `priority_rate: f32`,
`sampling_priority: Option<SamplingPriority>`. -/
structure SampleResult where
  rule_rate : Fl
  limiter_rate : Fl
  priority_rate : Fl
  sampling_priority : Option SamplingPriority
deriving DecidableEq, Repr

/-- `SampleResult::new()`: every rate NaN, priority unset. -/
def SampleResult.new : SampleResult :=
  { rule_rate := .nan, limiter_rate := .nan, priority_rate := .nan,
    sampling_priority := none }

/-- The `#[derive(Default)]` instance of `SampleResult`: Rust's derived
`Default` zero-initialises the floats, so every rate is `0.0` (not NaN)
and the priority is `None`. -/
def SampleResult.derivedDefault : SampleResult :=
  { rule_rate := .val 0, limiter_rate := .val 0, priority_rate := .val 0,
    sampling_priority := none }

/-- From `src/dd/sample/priority_sampler.rs`: the data guarded by the
sampler's mutex, `agent_sampling_rates: HashMap<String, SamplingRate>`
(modelled as an association list) plus `default_sampling_rate`. -/
structure PrioritySamplerData where
  agent_sampling_rates : List (String × SamplingRate)
  default_sampling_rate : SamplingRate
deriving DecidableEq, Repr

/-- Lookup in the modelled `HashMap`. -/
def lookupRate (m : List (String × SamplingRate)) (k : String) :
    Option SamplingRate :=
  (m.find? (fun p => p.1 == k)).map (fun p => p.2)

/-- `HashMap::insert`: overwrite the binding if the key is present,
otherwise append it. -/
def insertRate (m : List (String × SamplingRate)) (k : String)
    (v : SamplingRate) : List (String × SamplingRate) :=
  if m.any (fun p => p.1 == k) then
    m.map (fun p => if p.1 == k then (k, v) else p)
  else m ++ [(k, v)]

/-- `PrioritySampler::new()`: empty table, default rate 1.0 with
`max_hash = u64::MAX`. -/
def PrioritySampler.new : PrioritySamplerData :=
  { agent_sampling_rates := [],
    default_sampling_rate := { rate := .val 1, max_hash := U64_MAX } }

/-- From `src/dd/sample/priority_sampler.rs`: `PrioritySampler::sample`.
The key is `format!("service:{},env:{}", service, environment)`; the
lookup falls back to the default rate; `hashed_id` is the `u128` product
`trace_id * CONSTANT_RATE_HASH_FACTOR` (no wraparound for `u64` inputs),
truncated by `as u64` (`% 2 ^ 64`) for the comparison; drop iff the
truncated value is `≥ max_hash`.  The result is built with
`..Default::default()`, so `rule_rate` and `limiter_rate` are `0.0`.
The method takes `&self` and acquires the lock immutably, so the data is
returned unchanged by construction. -/
def PrioritySampler.sample (data : PrioritySamplerData)
    (environment service : String) (trace_id : ℕ) : SampleResult :=
  let key := "service:" ++ service ++ ",env:" ++ environment
  let applied_rate :=
    (lookupRate data.agent_sampling_rates key).getD data.default_sampling_rate
  let hashed_id := trace_id * CONSTANT_RATE_HASH_FACTOR
  let sampling_priority :=
    if hashed_id % 2 ^ 64 ≥ applied_rate.max_hash then
      SamplingPriority.SamplerDrop
    else
      SamplingPriority.SamplerKeep
  { SampleResult.derivedDefault with
      priority_rate := applied_rate.rate,
      sampling_priority := some sampling_priority }

/-- The sentinel key `"service:,env:"` whose value configures the default
rate. -/
def PRIORITY_SAMPLER_DEFAULT_RATE_KEY : String := "service:,env:"

/-- Model of `serde_json::Value`, restricted to the shapes `configure`
distinguishes.  `serde_json`'s default `Map` is a `BTreeMap`, so an
object's entries iterate in ascending key order; the `obj` list is taken
to be that iteration order. -/
inductive Json where
  | obj (entries : List (String × Json)) : Json
  | num (q : ℚ) : Json
  | str (s : String) : Json
  | bool (b : Bool) : Json
  | null : Json
  | arr (elements : List Json) : Json

/-- Whether a `Json` value is an object. -/
def Json.isObj : Json → Bool
  | .obj _ => true
  | _ => false

/-- The loop body of `PrioritySampler::configure`: iterate the object's
entries in order, building the local `rates` table; a sentinel entry
assigns `data.default_sampling_rate` immediately (inside the loop); a
non-number value returns the error with the data as mutated so far; on
success the whole `agent_sampling_rates` table is replaced at the end.
(`Number::as_f64` succeeds on every standard `serde_json` number, so the
`"No float"` arm is unreachable and not modelled.) -/
def configureLoop (entries : List (String × Json))
    (rates : List (String × SamplingRate)) (data : PrioritySamplerData) :
    PrioritySamplerData × Option String :=
  match entries with
  | [] => ({ data with agent_sampling_rates := rates }, none)
  | (key, value) :: rest =>
    match value with
    | .num rate =>
      let new_rate : SamplingRate :=
        { rate := .val rate, max_hash := max_id_from_sample_rate (.val rate) }
      if key = PRIORITY_SAMPLER_DEFAULT_RATE_KEY then
        configureLoop rest rates
          { data with default_sampling_rate := new_rate }
      else
        configureLoop rest (insertRate rates key new_rate) data
    | _ => (data, some "Invalid json for config. All values should be numbers.")

/-- From `src/dd/sample/priority_sampler.rs`: `PrioritySampler::configure`.
A non-object payload errors before the lock is taken, leaving the data
untouched. -/
def PrioritySampler.configure (data : PrioritySamplerData) (config : Json) :
    PrioritySamplerData × Option String :=
  match config with
  | .obj entries => configureLoop entries [] data
  | _ => (data, some "Invalid json for config. Expected Object.")

/-- One nanosecond-resolution second, the window length used by the
limiter's `as_secs` arithmetic. -/
def NANOS_PER_SEC : ℕ := 1000000000

/-- From `src/dd/limiter.rs`: the data guarded by the limiter's mutex.
The `time_provider` closure is factored out: each call to `allow` takes
the instant it would have produced.  Instants and durations are
nanosecond counts. -/
structure LimitData where
  num_tokens : ℕ
  max_tokens : ℕ
  refresh_interval : ℕ
  tokens_per_refresh : ℕ
  next_refresh : ℕ
  previous_rates : List ℚ
  previous_rates_sum : ℚ
  current_period : ℕ
  num_allowed : ℕ
  num_requested : ℕ
deriving DecidableEq, Repr

/-- From `src/dd/limiter.rs`: `LimitData::new`, with the refresh interval
already computed (in the source,
`Duration::from_secs(1).div_f64(refresh_rate).mul_f64(tokens_per_refresh)`;
every configuration a theorem below uses has `refresh_rate = 1.0` and
`tokens_per_refresh = 1`, where that is exactly `NANOS_PER_SEC`
nanoseconds). -/
def LimitData.new (now : ℕ) (max_tokens : ℕ) (refresh_interval : ℕ)
    (tokens_per_refresh : ℕ) : LimitData :=
  { num_tokens := max_tokens,
    max_tokens := max_tokens,
    refresh_interval := refresh_interval,
    tokens_per_refresh := tokens_per_refresh,
    next_refresh := now + refresh_interval,
    previous_rates := List.replicate 9 1,
    previous_rates_sum := (List.replicate 9 (1 : ℚ)).sum,
    current_period := now,
    num_allowed := 0,
    num_requested := 0 }

/-- From `src/dd/limiter.rs`, `Limiter::allow`, first block: roll the
1-second window.  `intervals = (now - current_period).as_secs()`.  When
`intervals ≥ previous_rates.len()`, every slot except slot 0 is set to
`1.0` (`previous_rates[1..]`); otherwise `back` is the first
`len - intervals` slots, the vector is truncated to its first `intervals`
slots and `back` appended, slot `intervals - 1` receives
`num_allowed / num_requested` (or `1.0` when nothing was requested), and
for `intervals > 2` slots `[0, intervals - 2)` are reset to `1.0`.  The
sum is then recomputed, the counters cleared and the period restarted.
`rollRates` is the new contents of `previous_rates` for a roll of
`intervals ≥ 1` windows; `rollWindow` is the whole block. -/
def rollRates (d : LimitData) (intervals : ℕ) : List ℚ :=
  if intervals ≥ d.previous_rates.length then
    match d.previous_rates with
    | [] => []
    | r0 :: rest => r0 :: rest.map (fun _ => (1 : ℚ))
  else
    let back := d.previous_rates.take (d.previous_rates.length - intervals)
    let rotated := d.previous_rates.take intervals ++ back
    let slotVal : ℚ :=
      if d.num_requested > 0 then
        (d.num_allowed : ℚ) / (d.num_requested : ℚ)
      else 1
    let withSlot := rotated.set (intervals - 1) slotVal
    if intervals > 2 then
      List.replicate (intervals - 2) (1 : ℚ) ++ withSlot.drop (intervals - 2)
    else withSlot

/-- The window-roll block of `Limiter::allow`: no-op when less than one
whole second has elapsed, otherwise replace the history by `rollRates`,
recompute the cached sum, clear the counters and restart the period. -/
def rollWindow (d : LimitData) (now : ℕ) : LimitData :=
  let intervals := (now - d.current_period) / NANOS_PER_SEC
  if intervals = 0 then d
  else
    let rates := rollRates d intervals
    { d with previous_rates := rates,
             previous_rates_sum := rates.sum,
             num_allowed := 0,
             num_requested := 0,
             current_period := now }

/-- From `src/dd/limiter.rs`, `Limiter::allow`, refill block: when
`now ≥ next_refresh`, `intervals` is the `u128` division
`(now - next_refresh) / refresh_interval + 1` (so at least 1 and the
inner `if intervals > 0` always fires); the added duration and the token
product are `u64` computations, reduced `% 2 ^ 64`; the token count is
SET to `intervals * tokens_per_refresh` and capped at `max_tokens`.
(`refresh_interval = 0` would make the Rust division panic; every
configuration used below has a positive interval.) -/
def refill (d : LimitData) (now : ℕ) : LimitData :=
  if now ≥ d.next_refresh then
    let intervals := (now - d.next_refresh) / d.refresh_interval + 1
    if intervals > 0 then
      let duration := d.refresh_interval % 2 ^ 64 * (intervals % 2 ^ 64) % 2 ^ 64
      let tokens := intervals % 2 ^ 64 * d.tokens_per_refresh % 2 ^ 64
      { d with next_refresh := d.next_refresh + duration,
               num_tokens := min tokens d.max_tokens }
    else d
  else d

/-- From `src/dd/limiter.rs`: the value returned by `Limiter::allow`. -/
structure LimitResult where
  allowed : Bool
  effective_rate : ℚ
deriving DecidableEq, Repr

/-- From `src/dd/limiter.rs`, `Limiter::allow`, decision block: when the
token count covers the request, the call is allowed, `num_allowed` is
incremented and the tokens consumed; otherwise nothing changes. -/
def consume (d : LimitData) (tokens_requested : ℕ) : Bool × LimitData :=
  if d.num_tokens ≥ tokens_requested then
    (true, { d with num_allowed := d.num_allowed + 1,
                    num_tokens := d.num_tokens - tokens_requested })
  else (false, d)

/-- From `src/dd/limiter.rs`, `Limiter::allow`, final expression:
`effective_rate = (previous_rates_sum + num_allowed / num_requested) /
(previous_rates.len() + 1)`. -/
def effectiveRate (d : LimitData) : ℚ :=
  (d.previous_rates_sum + (d.num_allowed : ℚ) / (d.num_requested : ℚ)) /
    ((d.previous_rates.length : ℚ) + 1)

/-- From `src/dd/limiter.rs`: `Limiter::allow(tokens_requested)`, as a
function of the guarded data and the instant the time provider returns:
roll the window, increment `num_requested`, refill, decide, and report
the effective rate computed from the final state. -/
def Limiter.allow (d : LimitData) (now : ℕ) (tokens_requested : ℕ) :
    LimitResult × LimitData :=
  let d1 := rollWindow d now
  let d2 := { d1 with num_requested := d1.num_requested + 1 }
  let d3 := refill d2 now
  let p := consume d3 tokens_requested
  ({ allowed := p.1, effective_rate := effectiveRate p.2 }, p.2)

/-- From `src/rules_sampler.rs`: `RuleResult { matched: bool, rate: f64 }`. -/
structure RuleResult where
  matched : Bool
  rate : Fl
deriving DecidableEq, Repr

/-- `RuleResult::new()`: unmatched, rate NaN. -/
def RuleResult.new : RuleResult := { matched := false, rate := .nan }

/-- From `src/rules_sampler.rs`: `RulesSampler::match_rule` — invoke the
registered rule callbacks in order and return the first matched result,
else `RuleResult::new()`. -/
def matchRule (rules : List (String → String → RuleResult))
    (service name : String) : RuleResult :=
  match rules with
  | [] => RuleResult.new
  | rule :: rest =>
    let result := rule service name
    if result.matched then result else matchRule rest service name

/-- The observable outcome of one `RulesSampler::sample` call: the
returned `SampleResult`, the limiter data afterwards, and whether
`Limiter::allow` was invoked during the call. -/
structure RulesSampleOutcome where
  result : SampleResult
  limiter : LimitData
  limiter_consulted : Bool
deriving DecidableEq, Repr

/-- From `src/rules_sampler.rs`: `RulesSampler::sample`.  With no matched
rule the call delegates to `PrioritySampler::sample`.  With a matched
rule of rate `R`, `rule_rate := R`, `max_hash := max_id_from_sample_rate R`,
and `hashed_id` is the `u128` product `trace_id * CONSTANT_RATE_HASH_FACTOR`
(note: compared against `max_hash as u128` at full 128-bit width, with no
`as u64` truncation); when `hashed_id > max_hash` the decision is Drop
and the limiter is skipped, otherwise `Limiter::allow(1)` decides.  `now`
is the instant the limiter's time provider would produce during the
call. -/
def RulesSampler.sample (rules : List (String → String → RuleResult))
    (limiter : LimitData) (prio : PrioritySamplerData)
    (environment service name : String) (trace_id : ℕ) (now : ℕ) :
    RulesSampleOutcome :=
  let rule_result := matchRule rules service name
  if !rule_result.matched then
    { result := PrioritySampler.sample prio environment service trace_id,
      limiter := limiter,
      limiter_consulted := false }
  else
    let result1 := { SampleResult.new with rule_rate := rule_result.rate }
    let max_hash := max_id_from_sample_rate rule_result.rate
    let hashed_id := trace_id * CONSTANT_RATE_HASH_FACTOR
    if hashed_id > max_hash then
      { result := { result1 with
          sampling_priority := some SamplingPriority.SamplerDrop },
        limiter := limiter,
        limiter_consulted := false }
    else
      let r := Limiter.allow limiter now 1
      { result := { result1 with
          limiter_rate := .val r.1.effective_rate,
          sampling_priority := some (if r.1.allowed then
            SamplingPriority.SamplerKeep else SamplingPriority.SamplerDrop) },
        limiter := r.2,
        limiter_consulted := true }

/-- Run a sequence of `Limiter::allow` calls, each given as the pair
(instant, tokens_requested), threading the limiter data through. -/
def runCalls (d : LimitData) (calls : List (ℕ × ℕ)) : LimitData :=
  match calls with
  | [] => d
  | c :: rest => runCalls (Limiter.allow d c.1 c.2).2 rest

/-- `PrioritySampler::sample` together with the guarded data as it stands
when the lock is released: the method borrows `&self` and binds the guard
immutably, so the data it leaves behind is the data it found. -/
def PrioritySampler.sampleSt (data : PrioritySamplerData)
    (environment service : String) (trace_id : ℕ) :
    SampleResult × PrioritySamplerData :=
  (PrioritySampler.sample data environment service trace_id, data)

/-- A single registered rule that matches everything with the given rate,
as built in concrete scenarios. -/
def oneRule (r : ℚ) : List (String → String → RuleResult) :=
  [fun _ _ => { matched := true, rate := .val r }]

/-- The limiter data of `Limiter::new(time_provider, 1, 1.0, 1)` with the
provider reporting instant 0: capacity one token, one refill of one token
per second. -/
def freshLimiter : LimitData := LimitData.new 0 1 NANOS_PER_SEC 1

/-- A configure payload whose sentinel entry precedes (in the `BTreeMap`
iteration order, `"service:,env:" < "zzz"`) a non-numeric value. -/
def c4Config : Json :=
  .obj [("service:,env:", .num (1 / 2)), ("zzz", .bool true)]

/-- The `SampleResult` of a rule-rejected trace: built from
`SampleResult::new()`, so only `rule_rate` and the Drop priority are
set; `limiter_rate` stays NaN. -/
def droppedByRule (r : ℚ) : SampleResult :=
  { SampleResult.new with
      rule_rate := .val r,
      sampling_priority := some SamplingPriority.SamplerDrop }

/-- Rolling the window never touches the token fields. -/
theorem rollWindow_num_tokens (d : LimitData) (now : ℕ) :
    (rollWindow d now).num_tokens = d.num_tokens := by
  by_cases hc : (now - d.current_period) / NANOS_PER_SEC = 0 <;>
    simp [rollWindow, hc]

theorem rollWindow_max_tokens (d : LimitData) (now : ℕ) :
    (rollWindow d now).max_tokens = d.max_tokens := by
  by_cases hc : (now - d.current_period) / NANOS_PER_SEC = 0 <;>
    simp [rollWindow, hc]

theorem rollWindow_num_requested (d : LimitData) (now : ℕ) :
    (rollWindow d now).num_requested = d.num_requested ∨
    (rollWindow d now).num_requested = 0 := by
  by_cases hc : (now - d.current_period) / NANOS_PER_SEC = 0
  · exact Or.inl (by simp [rollWindow, hc])
  · exact Or.inr (by simp [rollWindow, hc])

/-- The rolled history has the same length as the old one: the long-idle
branch rewrites slots in place, and the rotate branch rebuilds a list of
the same length. -/
theorem rollRates_length (d : LimitData) (i : ℕ) :
    (rollRates d i).length = d.previous_rates.length := by
  unfold rollRates
  split
  · cases hl : d.previous_rates with
    | nil => simp [hl]
    | cons r0 rest => simp [hl]
  · rename_i hlt
    push_neg at hlt
    dsimp only
    split
    · simp only [List.length_append, List.length_replicate, List.length_drop,
        List.length_set, List.length_take]
      omega
    · simp only [List.length_set, List.length_append, List.length_take]
      omega

/-- Rolling the window preserves the history length. -/
theorem rollWindow_length (d : LimitData) (now : ℕ) :
    (rollWindow d now).previous_rates.length = d.previous_rates.length := by
  by_cases hc : (now - d.current_period) / NANOS_PER_SEC = 0 <;>
    simp [rollWindow, hc, rollRates_length]

/-- Rolling the window preserves the sum invariant: when any roll
happens the cached sum is recomputed from the slots. -/
theorem rollWindow_sum (d : LimitData) (now : ℕ)
    (h : d.previous_rates_sum = d.previous_rates.sum) :
    (rollWindow d now).previous_rates_sum =
      (rollWindow d now).previous_rates.sum := by
  by_cases hc : (now - d.current_period) / NANOS_PER_SEC = 0 <;>
    simp [rollWindow, hc, h]

/-- Refilling never touches the history, the counters or the capacity. -/
theorem refill_previous_rates (d : LimitData) (now : ℕ) :
    (refill d now).previous_rates = d.previous_rates := by
  unfold refill; split
  · dsimp only; split <;> rfl
  · rfl

theorem refill_previous_rates_sum (d : LimitData) (now : ℕ) :
    (refill d now).previous_rates_sum = d.previous_rates_sum := by
  unfold refill; split
  · dsimp only; split <;> rfl
  · rfl

theorem refill_num_allowed (d : LimitData) (now : ℕ) :
    (refill d now).num_allowed = d.num_allowed := by
  unfold refill; split
  · dsimp only; split <;> rfl
  · rfl

theorem refill_num_requested (d : LimitData) (now : ℕ) :
    (refill d now).num_requested = d.num_requested := by
  unfold refill; split
  · dsimp only; split <;> rfl
  · rfl

theorem refill_max_tokens (d : LimitData) (now : ℕ) :
    (refill d now).max_tokens = d.max_tokens := by
  unfold refill; split
  · dsimp only; split <;> rfl
  · rfl

/-- Refilling keeps the token count within capacity: the refill branch
takes a `min` with `max_tokens`, and the other branches change nothing. -/
theorem refill_num_tokens_le (d : LimitData) (now : ℕ)
    (h : d.num_tokens ≤ d.max_tokens) :
    (refill d now).num_tokens ≤ d.max_tokens := by
  unfold refill; split
  · dsimp only; split
    · exact min_le_right _ _
    · exact h
  · exact h

/-- The decision step never touches the history, the request counter or
the capacity. -/
theorem consume_previous_rates (d : LimitData) (t : ℕ) :
    (consume d t).2.previous_rates = d.previous_rates := by
  unfold consume; split <;> rfl

theorem consume_previous_rates_sum (d : LimitData) (t : ℕ) :
    (consume d t).2.previous_rates_sum = d.previous_rates_sum := by
  unfold consume; split <;> rfl

theorem consume_num_requested (d : LimitData) (t : ℕ) :
    (consume d t).2.num_requested = d.num_requested := by
  unfold consume; split <;> rfl

theorem consume_max_tokens (d : LimitData) (t : ℕ) :
    (consume d t).2.max_tokens = d.max_tokens := by
  unfold consume; split <;> rfl

theorem consume_num_tokens_le (d : LimitData) (t : ℕ) :
    (consume d t).2.num_tokens ≤ d.num_tokens := by
  unfold consume; split
  · exact Nat.sub_le _ _
  · exact Nat.le_refl _

/-- When the decision step reports the call allowed, it took the
token-consuming branch. -/
theorem consume_allowed (d : LimitData) (t : ℕ)
    (h : (consume d t).1 = true) :
    (consume d t).2 =
      { d with num_allowed := d.num_allowed + 1,
               num_tokens := d.num_tokens - t } := by
  unfold consume at h ⊢
  split at h
  · rename_i hc
    rw [if_pos hc]
  · simp at h

/-- The state returned by `Limiter::allow`, written through the named
stages. -/
theorem allow_snd (d : LimitData) (now t : ℕ) :
    (Limiter.allow d now t).2 =
      (consume (refill
        { rollWindow d now with
            num_requested := (rollWindow d now).num_requested + 1 } now) t).2 :=
  rfl

/-- C1: in `RulesSampler::sample` the matched-rule hash test compares the
full 128-bit product `trace_id * CONSTANT_RATE_HASH_FACTOR` against
`max_hash as u128` with no `as u64` truncation, unlike
`PrioritySampler::sample`.  Consequently, for a matched rule of rate 1.0
(`max_hash = u64::MAX`) and `trace_id = 17`, the product exceeds
`u64::MAX`, the decision is Drop and `RateLimiter::allow` is never
reached — even though the 64-bit-truncated hash (computed here for
comparison) does not exceed `max_hash`, so the claimed behaviour would
have consulted the limiter. -/
theorem c1_rate_one_rule_rejects_and_skips_limiter :
    (RulesSampler.sample (oneRule 1) freshLimiter PrioritySampler.new
        "" "" "" 17 0).result.sampling_priority =
      some SamplingPriority.SamplerDrop ∧
    (RulesSampler.sample (oneRule 1) freshLimiter PrioritySampler.new
        "" "" "" 17 0).limiter_consulted = false ∧
    (RulesSampler.sample (oneRule 1) freshLimiter PrioritySampler.new
        "" "" "" 17 0).result.limiter_rate = .nan ∧
    17 * CONSTANT_RATE_HASH_FACTOR % 2 ^ 64 ≤
      max_id_from_sample_rate (.val 1) := by
  refine ⟨rfl, rfl, rfl, by decide⟩

/-- C2: the two implementations of `max_id_from_sample_rate` disagree.
The `dd/tools.rs` version follows the spec table: rate 1.0 gives
`u64::MAX`, rates `≤ 0` give 0, and rate 0.5 gives exactly `2 ^ 63`,
strictly below `u64::MAX`.  The `src/priority_sampler.rs` version
multiplies by `f64::MAX` instead of `u64::MAX as f64`, so the saturating
`as u64` cast collapses every rate strictly between 0 and 1 to
`u64::MAX`: at rate 0.5 it returns `u64::MAX`, not approximately
`2 ^ 63`. -/
theorem c2_max_id_from_sample_rate_implementations :
    max_id_from_sample_rate (.val 1) = U64_MAX ∧
    max_id_from_sample_rate (.val 0) = 0 ∧
    max_id_from_sample_rate (.val (-1)) = 0 ∧
    max_id_from_sample_rate .nan = 0 ∧
    max_id_from_sample_rate (.val (1 / 2)) = 2 ^ 63 ∧
    2 ^ 63 < U64_MAX ∧
    RootSampler.max_id_from_sample_rate (.val 1) = U64_MAX ∧
    RootSampler.max_id_from_sample_rate (.val 0) = 0 ∧
    RootSampler.max_id_from_sample_rate (.val (1 / 2)) = U64_MAX ∧
    RootSampler.max_id_from_sample_rate (.val (1 / 2)) ≠ 2 ^ 63 := by
  refine ⟨by decide, by decide, by decide, rfl, ?_, by decide,
    by decide, by decide, ?_, ?_⟩
  · norm_num [max_id_from_sample_rate, f64_as_u64, MAX_TRACE_ID_DOUBLE, U64_MAX]
    rfl
  · norm_num [RootSampler.max_id_from_sample_rate,
      RootSampler.MAX_TRACE_ID_DOUBLE, f64_as_u64, U64_MAX]
  · norm_num [RootSampler.max_id_from_sample_rate,
      RootSampler.MAX_TRACE_ID_DOUBLE, f64_as_u64, U64_MAX]

/-- C5: on the no-match path `RulesSampler::sample` returns exactly what
`PrioritySampler::sample` returns, and that result is built with the
derived `Default`, so `rule_rate` and `limiter_rate` are `0.0` — not NaN
as claimed (the NaN convention lives in `SampleResult::new`, which this
path never uses). -/
theorem c5_no_match_result_rates_are_zero_not_nan :
    (RulesSampler.sample [] freshLimiter PrioritySampler.new
        "" "" "" 0 0).result =
      PrioritySampler.sample PrioritySampler.new "" "" 0 ∧
    (RulesSampler.sample [] freshLimiter PrioritySampler.new
        "" "" "" 0 0).limiter_consulted = false ∧
    (RulesSampler.sample [] freshLimiter PrioritySampler.new
        "" "" "" 0 0).result.rule_rate = .val 0 ∧
    (RulesSampler.sample [] freshLimiter PrioritySampler.new
        "" "" "" 0 0).result.limiter_rate = .val 0 ∧
    (RulesSampler.sample [] freshLimiter PrioritySampler.new
        "" "" "" 0 0).result.rule_rate ≠ .nan := by
  refine ⟨rfl, rfl, rfl, rfl, by decide⟩

/-- C3 (counterexample): with a matched rule of rate 0.0 and
`trace_id = 0`, the rule test `hashed_id > max_hash` is `0 > 0`, which is
false, so `RulesSampler::sample` does consult the limiter: on a fresh
limiter the decision is Keep, `limiter_rate` is 1.0 (not NaN), and the
limiter's counters and token count change. -/
theorem c3_rate_zero_trace_zero_consults_limiter :
    (RulesSampler.sample (oneRule 0) freshLimiter PrioritySampler.new
        "" "" "" 0 0).result.sampling_priority =
      some SamplingPriority.SamplerKeep ∧
    (RulesSampler.sample (oneRule 0) freshLimiter PrioritySampler.new
        "" "" "" 0 0).limiter_consulted = true ∧
    (RulesSampler.sample (oneRule 0) freshLimiter PrioritySampler.new
        "" "" "" 0 0).result.limiter_rate = .val 1 ∧
    (RulesSampler.sample (oneRule 0) freshLimiter PrioritySampler.new
        "" "" "" 0 0).limiter.num_requested = freshLimiter.num_requested + 1 ∧
    (RulesSampler.sample (oneRule 0) freshLimiter PrioritySampler.new
        "" "" "" 0 0).limiter.num_allowed = freshLimiter.num_allowed + 1 ∧
    (RulesSampler.sample (oneRule 0) freshLimiter PrioritySampler.new
        "" "" "" 0 0).limiter.num_tokens = freshLimiter.num_tokens - 1 := by
  refine ⟨rfl, rfl, ?_, rfl, rfl, rfl⟩
  norm_num [RulesSampler.sample, oneRule, matchRule, max_id_from_sample_rate,
    Limiter.allow, rollWindow, refill, consume, effectiveRate, freshLimiter,
    LimitData.new, NANOS_PER_SEC, List.sum_replicate]

/-- C3 (amended): for every trace_id of at least 1, a matched rule of
rate 0.0 makes `RulesSampler::sample` return a Drop decision with
`rule_rate = 0.0` and `limiter_rate` NaN, the limiter untouched and never
invoked; only `trace_id = 0` escapes, because the rule test compares the
hash strictly (`hashed_id > max_hash` with `max_hash = 0`). -/
theorem c3_rate_zero_drops_every_positive_trace
    (rules : List (String → String → RuleResult)) (lim : LimitData)
    (prio : PrioritySamplerData) (environment service name : String)
    (trace_id now : ℕ)
    (hmatch : matchRule rules service name =
      { matched := true, rate := .val 0 })
    (hpos : 0 < trace_id) :
    RulesSampler.sample rules lim prio environment service name trace_id now =
      { result := droppedByRule 0, limiter := lim,
        limiter_consulted := false } := by
  have hfac : 0 < CONSTANT_RATE_HASH_FACTOR := by
    norm_num [CONSTANT_RATE_HASH_FACTOR]
  have hhash : trace_id * CONSTANT_RATE_HASH_FACTOR >
      max_id_from_sample_rate (.val 0) := by
    have : max_id_from_sample_rate (.val 0) = 0 := by decide
    rw [this]
    exact Nat.mul_pos hpos hfac
  simp only [RulesSampler.sample, hmatch, Bool.not_true, Bool.false_eq_true,
    if_false, if_pos hhash, droppedByRule, SampleResult.new]

/-- Witness for the amended C3 at the concrete input `trace_id = 1`. -/
theorem c3_rate_zero_drops_every_positive_trace_witness :
    RulesSampler.sample (oneRule 0) freshLimiter PrioritySampler.new
        "" "" "" 1 0 =
      { result := droppedByRule 0, limiter := freshLimiter,
        limiter_consulted := false } :=
  c3_rate_zero_drops_every_positive_trace (oneRule 0) freshLimiter
    PrioritySampler.new "" "" "" 1 0 rfl (by decide)

/-- C4 (counterexample): feeding `c4Config` to a fresh
`PrioritySampler::configure` returns the configuration error, yet the
sampler's `default_sampling_rate` has already been overwritten by the
sentinel entry processed before the offending value — the update is not
all-or-nothing. -/
theorem c4_configure_error_leaks_default_update :
    ((PrioritySampler.configure PrioritySampler.new c4Config).2 =
      some "Invalid json for config. All values should be numbers.") ∧
    (PrioritySampler.configure PrioritySampler.new c4Config).1 ≠
      PrioritySampler.new ∧
    (PrioritySampler.configure PrioritySampler.new c4Config).1.default_sampling_rate.max_hash
      = 2 ^ 63 ∧
    PrioritySampler.new.default_sampling_rate.max_hash = U64_MAX := by
  have hmax : max_id_from_sample_rate (.val (1 / 2)) = 2 ^ 63 := by
    norm_num [max_id_from_sample_rate, f64_as_u64, MAX_TRACE_ID_DOUBLE,
      U64_MAX]
    rfl
  have hconf : PrioritySampler.configure PrioritySampler.new c4Config =
      ({ agent_sampling_rates := [],
         default_sampling_rate :=
           { rate := .val (1 / 2), max_hash := 2 ^ 63 } },
       some "Invalid json for config. All values should be numbers.") := by
    simp only [PrioritySampler.configure, c4Config, configureLoop,
      PRIORITY_SAMPLER_DEFAULT_RATE_KEY, PrioritySampler.new, hmax,
      if_pos, reduceCtorEq, reduceIte]
  refine ⟨by rw [hconf], ?_, by rw [hconf], rfl⟩
  rw [hconf]
  intro h
  have hfield := congrArg (fun s => s.default_sampling_rate.max_hash) h
  simp only [PrioritySampler.new] at hfield
  norm_num [U64_MAX] at hfield

/-- C4 (amended): a non-object payload leaves the sampler state exactly
as it was and reports the configuration error; an object containing a
non-numeric value also reports the error and leaves the
`agent_sampling_rates` table exactly as it was (the wholesale replacement
only happens on success) — but the `default_sampling_rate` may already
have been overwritten by sentinel entries iterated before the offending
value, so the update is all-or-nothing only for the table. -/
theorem c4_configure_error_handling (d : PrioritySamplerData) (config : Json) :
    (config.isObj = false →
      PrioritySampler.configure d config =
        (d, some "Invalid json for config. Expected Object.")) ∧
    ((PrioritySampler.configure d config).2.isSome = true →
      (PrioritySampler.configure d config).1.agent_sampling_rates =
        d.agent_sampling_rates) := by
  have key : ∀ (entries : List (String × Json))
      (rates : List (String × SamplingRate)) (d0 : PrioritySamplerData),
      (configureLoop entries rates d0).2.isSome = true →
      (configureLoop entries rates d0).1.agent_sampling_rates =
        d0.agent_sampling_rates := by
    intro entries
    induction entries with
    | nil => intro rates d0 h; simp [configureLoop] at h
    | cons e rest ih =>
      intro rates d0 h
      obtain ⟨k, v⟩ := e
      cases v with
      | num q =>
        by_cases hk : k = PRIORITY_SAMPLER_DEFAULT_RATE_KEY
        · simp only [configureLoop, if_pos hk] at h ⊢
          exact ih _ _ h
        · simp only [configureLoop, if_neg hk] at h ⊢
          exact ih _ _ h
      | obj o => simp [configureLoop]
      | str s => simp [configureLoop]
      | bool b => simp [configureLoop]
      | null => simp [configureLoop]
      | arr a => simp [configureLoop]
  constructor
  · intro hobj
    cases config with
    | obj entries => simp [Json.isObj] at hobj
    | num q => rfl
    | str s => rfl
    | bool b => rfl
    | null => rfl
    | arr a => rfl
  · intro herr
    cases config with
    | obj entries => exact key entries [] d herr
    | num q => rfl
    | str s => rfl
    | bool b => rfl
    | null => rfl
    | arr a => rfl

/-- Witness for the amended C4: a non-object payload (`null`) leaves a
fresh sampler untouched, and the erroring `c4Config` leaves its (empty)
rate table untouched. -/
theorem c4_configure_error_handling_witness :
    PrioritySampler.configure PrioritySampler.new Json.null =
      (PrioritySampler.new, some "Invalid json for config. Expected Object.") ∧
    (PrioritySampler.configure PrioritySampler.new c4Config).1.agent_sampling_rates
      = PrioritySampler.new.agent_sampling_rates := by
  constructor
  · exact (c4_configure_error_handling PrioritySampler.new Json.null).1 rfl
  · exact (c4_configure_error_handling PrioritySampler.new c4Config).2 rfl

/-- After at least 9 idle seconds, the roll takes the long-idle branch:
slots 1..8 become 1.0, slot 0 is left as it was (here hypothesised to be
1.0), the sum is recomputed and the counters cleared. -/
theorem rollWindow_idle (d : LimitData) (now : ℕ)
    (h9 : d.previous_rates.length = 9)
    (h0 : d.previous_rates.head? = some 1)
    (hidle : d.current_period + 9 * NANOS_PER_SEC ≤ now) :
    (rollWindow d now).previous_rates_sum = 9 ∧
    (rollWindow d now).previous_rates.length = 9 ∧
    (rollWindow d now).num_allowed = 0 ∧
    (rollWindow d now).num_requested = 0 := by
  have hN : 0 < NANOS_PER_SEC := by norm_num [NANOS_PER_SEC]
  have hsub : 9 * NANOS_PER_SEC ≤ now - d.current_period := by omega
  have hint : 9 ≤ (now - d.current_period) / NANOS_PER_SEC :=
    (Nat.le_div_iff_mul_le hN).2 hsub
  have hne : ¬ (now - d.current_period) / NANOS_PER_SEC = 0 := by omega
  obtain ⟨r0, rest, hl⟩ : ∃ r0 rest, d.previous_rates = r0 :: rest := by
    cases hcase : d.previous_rates with
    | nil => rw [hcase] at h9; simp at h9
    | cons a t => exact ⟨a, t, rfl⟩
  have hr0 : r0 = 1 := by rw [hl] at h0; simpa using h0
  have hrest : rest.length = 8 := by rw [hl] at h9; simpa using h9
  have hge : (now - d.current_period) / NANOS_PER_SEC ≥
      d.previous_rates.length := by rw [h9]; omega
  have hrates : rollRates d ((now - d.current_period) / NANOS_PER_SEC) =
      r0 :: rest.map (fun _ => (1 : ℚ)) := by
    unfold rollRates
    rw [if_pos hge, hl]
  have hsum : (r0 :: rest.map (fun _ => (1 : ℚ))).sum = 9 := by
    rw [hr0]
    simp [List.map_const', List.sum_replicate, hrest]
    norm_num
  refine ⟨?_, ?_, ?_, ?_⟩
  all_goals simp [rollWindow, hne, hrates, hsum, hrest, hr0]
  all_goals norm_num

/-- C6 (counterexample): start a fresh limiter with capacity 1, one
token per second.  Two calls at t = 0 (one allowed, one denied) write
the ratio 0.5 into slot 0 at the roll of the call at t = 1s; the next
call comes 9 idle seconds later, at t = 10s, and is allowed — yet its
effective_rate is 19/20 = 0.95, not 1.0, because the long-idle reset
leaves slot 0 (holding 0.5) unchanged. -/
theorem c6_idle_window_effective_rate_not_one :
    ((runCalls freshLimiter [(0, 1), (0, 1), (NANOS_PER_SEC, 1)]).current_period
        + 9 * NANOS_PER_SEC ≤ 10 * NANOS_PER_SEC) ∧
    (Limiter.allow (runCalls freshLimiter [(0, 1), (0, 1), (NANOS_PER_SEC, 1)])
        (10 * NANOS_PER_SEC) 1).1.allowed = true ∧
    (Limiter.allow (runCalls freshLimiter [(0, 1), (0, 1), (NANOS_PER_SEC, 1)])
        (10 * NANOS_PER_SEC) 1).1.effective_rate = 19 / 20 ∧
    ¬ (Limiter.allow (runCalls freshLimiter [(0, 1), (0, 1), (NANOS_PER_SEC, 1)])
        (10 * NANOS_PER_SEC) 1).1.effective_rate = 1 := by
  refine ⟨by decide, by decide, ?_, ?_⟩ <;>
    norm_num [runCalls, Limiter.allow, rollWindow, rollRates, refill, consume,
      effectiveRate, freshLimiter, LimitData.new, NANOS_PER_SEC,
      List.sum_replicate]

/-- C6 (amended): after at least 9 seconds with no calls, a single
allowed call reports effective_rate 1.0 provided the oldest history slot
(`previous_rates[0]`) holds 1.0 — as it does on a fresh limiter, or
whenever that slot was never overwritten.  In general the long-idle
branch resets only slots 1..8, so the rate is ((slot 0) + 9) / 10. -/
theorem c6_idle_window_effective_rate (d : LimitData) (now req : ℕ)
    (h9 : d.previous_rates.length = 9)
    (h0 : d.previous_rates.head? = some 1)
    (hidle : d.current_period + 9 * NANOS_PER_SEC ≤ now)
    (hallowed : (Limiter.allow d now req).1.allowed = true) :
    (Limiter.allow d now req).1.effective_rate = 1 := by
  obtain ⟨s1, l1, a1, r1⟩ := rollWindow_idle d now h9 h0 hidle
  have key : ∀ d3 : LimitData, d3.previous_rates_sum = 9 →
      d3.num_allowed = 0 → d3.num_requested = 1 →
      d3.previous_rates.length = 9 →
      (consume d3 req).1 = true →
      effectiveRate (consume d3 req).2 = 1 := by
    intro d3 e1 e2 e3 e4 hcons
    rw [consume_allowed d3 req hcons]
    unfold effectiveRate
    dsimp only
    rw [e1, e2, e3, e4]
    norm_num
  have e1 : (refill { rollWindow d now with
      num_requested := (rollWindow d now).num_requested + 1 } now).previous_rates_sum = 9 := by
    rw [refill_previous_rates_sum]
    exact s1
  have e2 : (refill { rollWindow d now with
      num_requested := (rollWindow d now).num_requested + 1 } now).num_allowed = 0 := by
    rw [refill_num_allowed]
    exact a1
  have e3 : (refill { rollWindow d now with
      num_requested := (rollWindow d now).num_requested + 1 } now).num_requested = 1 := by
    rw [refill_num_requested]
    show (rollWindow d now).num_requested + 1 = 1
    rw [r1]
  have e4 : (refill { rollWindow d now with
      num_requested := (rollWindow d now).num_requested + 1 } now).previous_rates.length = 9 := by
    rw [refill_previous_rates]
    exact l1
  exact key _ e1 e2 e3 e4 hallowed

/-- Witness for the amended C6: a fresh limiter called once 9 seconds
after construction reports effective_rate 1.0. -/
theorem c6_idle_window_effective_rate_witness :
    (Limiter.allow freshLimiter (9 * NANOS_PER_SEC) 1).1.allowed = true ∧
    (Limiter.allow freshLimiter (9 * NANOS_PER_SEC) 1).1.effective_rate = 1 := by
  have hall : (Limiter.allow freshLimiter (9 * NANOS_PER_SEC) 1).1.allowed
      = true := by decide
  exact ⟨hall, c6_idle_window_effective_rate freshLimiter (9 * NANOS_PER_SEC) 1
    rfl rfl (by decide) hall⟩

/-- One `allow` call preserves the capacity field. -/
theorem allow_max_tokens (d : LimitData) (now t : ℕ) :
    (Limiter.allow d now t).2.max_tokens = d.max_tokens := by
  rw [allow_snd, consume_max_tokens, refill_max_tokens]
  show (rollWindow d now).max_tokens = d.max_tokens
  exact rollWindow_max_tokens d now

/-- One `allow` call keeps the token count within the capacity it
started under. -/
theorem allow_num_tokens_le (d : LimitData) (now t : ℕ)
    (h : d.num_tokens ≤ d.max_tokens) :
    (Limiter.allow d now t).2.num_tokens ≤ d.max_tokens := by
  rw [allow_snd]
  have h2 : ({ rollWindow d now with
      num_requested := (rollWindow d now).num_requested + 1 } :
        LimitData).num_tokens ≤
      ({ rollWindow d now with
        num_requested := (rollWindow d now).num_requested + 1 } :
          LimitData).max_tokens := by
    show (rollWindow d now).num_tokens ≤ (rollWindow d now).max_tokens
    rw [rollWindow_num_tokens, rollWindow_max_tokens]
    exact h
  have h3 := refill_num_tokens_le _ now h2
  have h4 := consume_num_tokens_le (refill { rollWindow d now with
      num_requested := (rollWindow d now).num_requested + 1 } now) t
  have h5 : ({ rollWindow d now with
      num_requested := (rollWindow d now).num_requested + 1 } :
        LimitData).max_tokens = d.max_tokens := by
    show (rollWindow d now).max_tokens = d.max_tokens
    exact rollWindow_max_tokens d now
  calc (consume (refill { rollWindow d now with
          num_requested := (rollWindow d now).num_requested + 1 } now)
        t).2.num_tokens
      ≤ (refill { rollWindow d now with
          num_requested := (rollWindow d now).num_requested + 1 }
            now).num_tokens := h4
    _ ≤ _ := h5 ▸ h3

/-- Any sequence of calls preserves the capacity field. -/
theorem runCalls_max_tokens (calls : List (ℕ × ℕ)) :
    ∀ d : LimitData, (runCalls d calls).max_tokens = d.max_tokens := by
  induction calls with
  | nil => intro d; rfl
  | cons c rest ih =>
    intro d
    rw [runCalls, ih, allow_max_tokens]

/-- Any sequence of calls keeps the token count within capacity. -/
theorem runCalls_num_tokens_le (calls : List (ℕ × ℕ)) :
    ∀ d : LimitData, d.num_tokens ≤ d.max_tokens →
      (runCalls d calls).num_tokens ≤ (runCalls d calls).max_tokens := by
  induction calls with
  | nil => intro d h; exact h
  | cons c rest ih =>
    intro d h
    rw [runCalls]
    refine ih _ ?_
    rw [allow_max_tokens]
    exact allow_num_tokens_le d c.1 c.2 h

/-- C7: the token count starts at capacity and, after any sequence of
`allow` calls at arbitrary instants, stays at most `max_tokens` (being a
`u64`, it is trivially at least 0); moreover the refill step SETS the
token count — the count it produces is the same whatever the leftover
token count was, i.e. it never adds to leftovers. -/
theorem c7_tokens_within_capacity (now0 m ri tpr nowx nt nt2 : ℕ)
    (calls : List (ℕ × ℕ)) (dR : LimitData)
    (hrefresh : dR.next_refresh ≤ nowx) :
    (LimitData.new now0 m ri tpr).num_tokens = m ∧
    (runCalls (LimitData.new now0 m ri tpr) calls).num_tokens ≤ m ∧
    (runCalls (LimitData.new now0 m ri tpr) calls).max_tokens = m ∧
    (refill { dR with num_tokens := nt } nowx).num_tokens =
      (refill { dR with num_tokens := nt2 } nowx).num_tokens := by
  have hmax : (runCalls (LimitData.new now0 m ri tpr) calls).max_tokens
      = m := by
    rw [runCalls_max_tokens]
    rfl
  have hgen : ∀ ntk : ℕ,
      (refill { dR with num_tokens := ntk } nowx).num_tokens =
        min (((nowx - dR.next_refresh) / dR.refresh_interval + 1) % 2 ^ 64 *
          dR.tokens_per_refresh % 2 ^ 64) dR.max_tokens := by
    intro ntk
    unfold refill
    rw [if_pos (show nowx ≥ ({ dR with num_tokens := ntk } :
      LimitData).next_refresh from hrefresh)]
    dsimp only
    rw [if_pos (Nat.succ_pos _)]
  refine ⟨rfl, ?_, hmax, (hgen nt).trans (hgen nt2).symm⟩
  have := runCalls_num_tokens_le calls (LimitData.new now0 m ri tpr)
    (Nat.le_refl m)
  rw [hmax] at this
  exact this

/-- Witness for C7 at a concrete configuration: capacity 1, two calls,
and a refill one second after construction starting from either 0 or 5
leftover tokens. -/
theorem c7_tokens_within_capacity_witness :
    (LimitData.new 0 1 NANOS_PER_SEC 1).num_tokens = 1 ∧
    (runCalls (LimitData.new 0 1 NANOS_PER_SEC 1) [(0, 1), (0, 1)]).num_tokens ≤ 1 ∧
    (runCalls (LimitData.new 0 1 NANOS_PER_SEC 1) [(0, 1), (0, 1)]).max_tokens = 1 ∧
    (refill { freshLimiter with num_tokens := 0 } NANOS_PER_SEC).num_tokens =
      (refill { freshLimiter with num_tokens := 5 } NANOS_PER_SEC).num_tokens :=
  c7_tokens_within_capacity 0 1 NANOS_PER_SEC 1 NANOS_PER_SEC 0 5
    [(0, 1), (0, 1)] freshLimiter (by decide)

/-- One `allow` call preserves the 9-slot history shape and the cached
sum's consistency with the slots. -/
theorem allow_history_invariant (d : LimitData) (now t : ℕ)
    (hlen : d.previous_rates.length = 9)
    (hsum : d.previous_rates_sum = d.previous_rates.sum) :
    (Limiter.allow d now t).2.previous_rates.length = 9 ∧
    (Limiter.allow d now t).2.previous_rates_sum =
      (Limiter.allow d now t).2.previous_rates.sum := by
  rw [allow_snd]
  constructor
  · rw [consume_previous_rates, refill_previous_rates]
    show (rollWindow d now).previous_rates.length = 9
    rw [rollWindow_length]
    exact hlen
  · rw [consume_previous_rates_sum, consume_previous_rates,
      refill_previous_rates_sum, refill_previous_rates]
    show (rollWindow d now).previous_rates_sum =
      (rollWindow d now).previous_rates.sum
    exact rollWindow_sum d now hsum

/-- Any sequence of calls preserves the history invariant. -/
theorem runCalls_history_invariant (calls : List (ℕ × ℕ)) :
    ∀ d : LimitData, d.previous_rates.length = 9 →
      d.previous_rates_sum = d.previous_rates.sum →
      (runCalls d calls).previous_rates.length = 9 ∧
      (runCalls d calls).previous_rates_sum =
        (runCalls d calls).previous_rates.sum := by
  induction calls with
  | nil => intro d h1 h2; exact ⟨h1, h2⟩
  | cons c rest ih =>
    intro d h1 h2
    rw [runCalls]
    obtain ⟨g1, g2⟩ := allow_history_invariant d c.1 c.2 h1 h2
    exact ih _ g1 g2

/-- C8: from construction, through any sequence of `allow` calls at
arbitrary instants, the rate history keeps exactly 9 slots and the
cached `previous_rates_sum` equals the sum of those slots. -/
theorem c8_history_nine_slots_sum_consistent (now0 m ri tpr : ℕ)
    (calls : List (ℕ × ℕ)) :
    (LimitData.new now0 m ri tpr).previous_rates.length = 9 ∧
    (LimitData.new now0 m ri tpr).previous_rates_sum =
      (LimitData.new now0 m ri tpr).previous_rates.sum ∧
    (runCalls (LimitData.new now0 m ri tpr) calls).previous_rates.length = 9 ∧
    (runCalls (LimitData.new now0 m ri tpr) calls).previous_rates_sum =
      (runCalls (LimitData.new now0 m ri tpr) calls).previous_rates.sum := by
  have h1 : (LimitData.new now0 m ri tpr).previous_rates.length = 9 := by
    simp [LimitData.new]
  have h2 : (LimitData.new now0 m ri tpr).previous_rates_sum =
      (LimitData.new now0 m ri tpr).previous_rates.sum := rfl
  obtain ⟨g1, g2⟩ := runCalls_history_invariant calls _ h1 h2
  exact ⟨h1, h2, g1, g2⟩

/-- C9: `PrioritySampler::sample` is a pure function of the rate table,
the default rate, and the call arguments: two samplers agreeing on both
state fields produce identical results for the same (environment,
service, trace_id), and the guarded data after a call is exactly the
data before it. -/
theorem c9_priority_sample_deterministic (d1 d2 : PrioritySamplerData)
    (environment service : String) (trace_id : ℕ)
    (hrates : d1.agent_sampling_rates = d2.agent_sampling_rates)
    (hdef : d1.default_sampling_rate = d2.default_sampling_rate) :
    (PrioritySampler.sampleSt d1 environment service trace_id).1 =
      (PrioritySampler.sampleSt d2 environment service trace_id).1 ∧
    (PrioritySampler.sampleSt d1 environment service trace_id).2 = d1 ∧
    (PrioritySampler.sampleSt d2 environment service trace_id).2 = d2 := by
  cases d1
  cases d2
  dsimp only at hrates hdef
  subst hrates
  subst hdef
  exact ⟨rfl, rfl, rfl⟩

/-- Witness for C9 at a concrete pair of equal sampler states. -/
theorem c9_priority_sample_deterministic_witness :
    (PrioritySampler.sampleSt PrioritySampler.new "prod" "nginx" 42).1 =
      (PrioritySampler.sampleSt PrioritySampler.new "prod" "nginx" 42).1 ∧
    (PrioritySampler.sampleSt PrioritySampler.new "prod" "nginx" 42).2 =
      PrioritySampler.new ∧
    (PrioritySampler.sampleSt PrioritySampler.new "prod" "nginx" 42).2 =
      PrioritySampler.new :=
  c9_priority_sample_deterministic PrioritySampler.new PrioritySampler.new
    "prod" "nginx" 42 rfl rfl

/-- Membership in the rolled history when the closed window had no
requests: every slot either survives from the old history or is the
constant 1.0 — in particular no quotient `num_allowed / num_requested`
with zero divisor is ever stored. -/
theorem rollRates_mem_of_no_requests (d : LimitData) (i : ℕ)
    (h0 : d.num_requested = 0) (x : ℚ) (hx : x ∈ rollRates d i) :
    x ∈ d.previous_rates ∨ x = 1 := by
  unfold rollRates at hx
  split at hx
  · cases hl : d.previous_rates with
    | nil => rw [hl] at hx; simp at hx
    | cons r0 rest =>
      rw [hl] at hx
      simp only [List.mem_cons, List.mem_map] at hx
      rcases hx with h | ⟨a, _, hxa⟩
      · exact Or.inl (by rw [h]; exact List.mem_cons_self _ _)
      · exact Or.inr hxa.symm
  · dsimp only at hx
    rw [h0] at hx
    simp only [lt_self_iff_false, if_false] at hx
    split at hx
    · rcases List.mem_append.1 hx with h | h
      · exact Or.inr (List.eq_of_mem_replicate h)
      · have hset := List.drop_subset _ _ h
        rcases List.mem_or_eq_of_mem_set hset with h2 | h2
        · rcases List.mem_append.1 h2 with h3 | h3
          · exact Or.inl (List.take_subset _ _ h3)
          · exact Or.inl (List.take_subset _ _ h3)
        · exact Or.inr h2
    · rcases List.mem_or_eq_of_mem_set hx with h2 | h2
      · rcases List.mem_append.1 h2 with h3 | h3
        · exact Or.inl (List.take_subset _ _ h3)
        · exact Or.inl (List.take_subset _ _ h3)
      · exact Or.inr h2

/-- C10: in `Limiter::allow` no division divides by zero.  The divisor
of the final `effective_rate` division is the state's `num_requested`,
which the call has incremented to at least 1 after any window roll; and
when a roll happens with `num_requested = 0`, the guarded branch stores
the literal 1.0 instead of a quotient, so every slot of the rolled
history is an old slot or 1.0. -/
theorem c10_no_division_by_zero (d : LimitData) (now req : ℕ) :
    0 < (Limiter.allow d now req).2.num_requested ∧
    (d.num_requested = 0 →
      ∀ x ∈ (rollWindow d now).previous_rates,
        x ∈ d.previous_rates ∨ x = 1) := by
  constructor
  · rw [allow_snd, consume_num_requested, refill_num_requested]
    show 0 < (rollWindow d now).num_requested + 1
    exact Nat.succ_pos _
  · intro h0 x hx
    by_cases hc : (now - d.current_period) / NANOS_PER_SEC = 0
    · rw [show rollWindow d now = d by simp [rollWindow, hc]] at hx
      exact Or.inl hx
    · have : (rollWindow d now).previous_rates =
          rollRates d ((now - d.current_period) / NANOS_PER_SEC) := by
        simp [rollWindow, hc]
      rw [this] at hx
      exact rollRates_mem_of_no_requests d _ h0 x hx

/-- Witness for C10: the first call on a fresh limiter has a positive
request counter, instantiating the no-roll divisor fact; the roll fact
is instantiated at slot value 1.0. -/
theorem c10_no_division_by_zero_witness :
    0 < (Limiter.allow freshLimiter NANOS_PER_SEC 1).2.num_requested ∧
    ((1 : ℚ) ∈ freshLimiter.previous_rates ∨ (1 : ℚ) = 1) := by
  obtain ⟨a, b⟩ := c10_no_division_by_zero freshLimiter NANOS_PER_SEC 1
  refine ⟨a, b rfl 1 ?_⟩
  simp [rollWindow, freshLimiter, LimitData.new, NANOS_PER_SEC, rollRates,
    List.mem_replicate]

end DDTrace
